/-
Verification of the Advanced Energy scraper repository.

The repository holds one source file, `scraper.py` (the Catalog Crawler).
Pure string handling (`sanitize_name`) is embedded directly over `List Char`;
the crawling routine `main` and its helpers (`get_soup`, `save_text_file`,
`download_pdf`) are embedded as state-passing functions over an abstract
`World` (the network and HTML parser are external dependencies: a page is
modelled by the exact queries the code performs on it) and a `Crawl` state
collecting the effect traces (directories created, HTTP requests issued,
files written).  A missing-attribute access on a BeautifulSoup tag raises
`KeyError` in Python; the embedding surfaces it as an `Option PyErr` result.

The Homepage Snapshot Scraper described by the specification is not present
under the repository sources; its definitions below are modelled from the
specification text and are marked as such.
-/
import Mathlib

open List

/-! ## sanitize_name (scraper.py lines 12-15) -/

/-- The characters removed by the regex `[\\/*?:"<>|]` in `sanitize_name`. -/
def badChars : List Char := ['\\', '/', '*', '?', ':', '"', '<', '>', '|']

/-- Is `c` one of the characters `sanitize_name` replaces? -/
def isBad (c : Char) : Bool := badChars.contains c

/-- Whitespace stripped by Python `str.strip()` (ASCII whitespace set). -/
def pySpace (c : Char) : Bool :=
  (c == ' ') || (c == '\t') || (c == '\n') || (c == '\r') || (c == '\x0b') || (c == '\x0c')

/-- Python `str.strip()`: drop whitespace from both ends. -/
def pyStrip (l : List Char) : List Char :=
  rdropWhile pySpace (dropWhile pySpace l)

/-- `sanitize_name` over the characters of the input: strip, then replace
every occurrence of a character of `badChars` by an underscore
(`re.sub(..., "_", name)`). -/
def sanitizeChars (l : List Char) : List Char :=
  (pyStrip l).map (fun c => if isBad c then '_' else c)

/-- `sanitize_name` on Lean strings. -/
def sanitize_name (s : String) : String :=
  ⟨sanitizeChars s.data⟩

/-! ## Data model for the Catalog Crawler (scraper.py)

A parsed page is modelled by the outcome of the exact queries `main`
performs on it; anchors carry an optional href attribute (accessing a
missing attribute on a tag raises KeyError in Python). -/

/-- A filesystem path, as the list of segments joined by os.path.join. -/
abbrev FilePath0 := List String

/-- Contents of a written file: text (UTF-8) or streamed binary bytes. -/
inductive FileData where
  | text (s : String)
  | bin (bytes : List Nat)
deriving DecidableEq

/-- An anchor tag: its stripped text and its optional href attribute. -/
structure Anchor where
  text : String
  href : Option String
deriving DecidableEq

/-- A table cell: its stripped text and the anchor tags it contains, in
document order. -/
structure Cell where
  text : String
  anchors : List Anchor
deriving DecidableEq

/-- A product-table row: the cell with data-title Product and the cell
with data-title Datasheet, each absent when `find` returns None. -/
structure Row where
  productCell : Option Cell
  datasheetCell : Option Cell
deriving DecidableEq

/-- A category block (div.hover:shadow-highlight): the text of its
h3.title-highlight heading if present, and the anchors matching
`ul li a` in document order. -/
structure CategoryBlock where
  titleH3 : Option String
  subCatLinks : List Anchor
deriving DecidableEq

/-- A parsed page, described by the queries the crawler performs on it:
whether `nav a[href="/en-us/products/"]` matches; the category blocks of
`div.stack.my-12` (none when that container is absent); the stripped text
of the first h1; the stripped text of `div.header-content-description`;
and the rows of `div.table-responsive tbody tr`. -/
structure PageDoc where
  hasProductsNavLink : Bool
  portfolioBlocks : Option (List CategoryBlock)
  h1Text : Option String
  headerDescription : Option String
  tableRows : List Row
deriving DecidableEq

/-- The external world: urljoin (urllib), and the network as seen through
`get_soup` (page per URL, absent on request failure) and through the
streamed GET of `download_pdf` (payload per URL, absent on failure). -/
structure World where
  resolve : String → String → String
  pages : String → Option PageDoc
  pdfBytes : String → Option (List Nat)

/-- The local filesystem: directories created (in creation order) and the
files present, newest first. -/
structure FS where
  dirs : List FilePath0
  files : List (FilePath0 × FileData)
deriving DecidableEq

/-- First file recorded at a path (newest write wins). -/
def lookupFile : List (FilePath0 × FileData) → FilePath0 → Option FileData
  | [], _ => none
  | e :: rest, p => if e.1 = p then some e.2 else lookupFile rest p

/-- The file currently at a path, if any (os.path.exists / file bytes). -/
def FS.fileAt (fs : FS) (p : FilePath0) : Option FileData :=
  lookupFile fs.files p

/-- State threaded through the crawl: the filesystem, the GET requests
issued in order, and the file-write events in order. -/
structure Crawl where
  fs : FS
  requests : List String
  writes : List (FilePath0 × FileData)
deriving DecidableEq

/-- The uncaught Python exceptions the crawler can raise. -/
inductive PyErr where
  | keyError (attr : String)
deriving DecidableEq

/-- os.makedirs(path, exist_ok=True). -/
def osMakedirs (p : FilePath0) (st : Crawl) : Crawl :=
  { st with fs := { st.fs with dirs := st.fs.dirs ++ [p] } }

/-- Record a file write (open + write, which overwrites any old file). -/
def writeFile (p : FilePath0) (d : FileData) (st : Crawl) : Crawl :=
  { st with
      fs := { st.fs with files := (p, d) :: st.fs.files },
      writes := st.writes ++ [(p, d)] }

/-! ## Operations of scraper.py -/

/-- Fixed output root folder (line 8). -/
def MAIN_FOLDER : String := "Advanced Energy"

/-- Fixed start URL (line 9). -/
def START_URL : String := "https://www.advancedenergy.com/en-us/"

/-- `get_soup` (lines 17-29): issue a GET for the URL and return the
parsed page, or none on a request failure (caught and logged). -/
def get_soup (w : World) (url : String) (st : Crawl) : Option PageDoc × Crawl :=
  (w.pages url, { st with requests := st.requests ++ [url] })

/-- `save_text_file` (lines 31-39): write title, a blank line, then the
description. An IOError is caught and logged; writes are modelled as
succeeding. -/
def save_text_file (path : FilePath0) (title description : String) (st : Crawl) : Crawl :=
  writeFile path (FileData.text (title ++ "\n\n" ++ description)) st

/-- `download_pdf` (lines 41-56): skip when a file already exists at the
target path; otherwise GET the URL (failures caught and logged) and write
the streamed body. -/
def download_pdf (w : World) (pdf_url : String) (file_path : FilePath0) (st : Crawl) : Crawl :=
  if (st.fs.fileAt file_path).isSome then st
  else
    let st1 := { st with requests := st.requests ++ [pdf_url] }
    match w.pdfBytes pdf_url with
    | none => st1
    | some bytes => writeFile file_path (FileData.bin bytes) st1

/-- `datasheet_cell.find(a, href=True)` followed by the href access
(lines 139-142): the first anchor carrying an href attribute, if any. -/
def findDatasheetHref : List Anchor → Option String
  | [] => none
  | a :: rest =>
      match a.href with
      | some h => some h
      | none => findDatasheetHref rest

/-- The row body of the datasheet loop (lines 133-145). -/
def processRow (w : World) (sub_category_url : String) (sub_category_path : FilePath0)
    (row : Row) (st : Crawl) : Crawl :=
  match row.productCell, row.datasheetCell with
  | some product_cell, some datasheet_cell =>
      let product_name := sanitize_name product_cell.text
      match findDatasheetHref datasheet_cell.anchors with
      | some h =>
          if product_name = "" then st
          else
            download_pdf w (w.resolve sub_category_url h)
              (sub_category_path ++ [product_name ++ "_datasheet.pdf"]) st
      | none => st
  | _, _ => st

/-- The datasheet loop over the table rows (lines 133-145). -/
def processRows (w : World) (sub_category_url : String) (sub_category_path : FilePath0) :
    List Row → Crawl → Crawl
  | [], st => st
  | row :: rest, st =>
      processRows w sub_category_url sub_category_path rest
        (processRow w sub_category_url sub_category_path row st)

/-- Title of a sub-category page (line 117): first h1 text, else the
sub-category name. -/
def subCatTitle (page : PageDoc) (sub_category_name : String) : String :=
  match page.h1Text with
  | some t => t
  | none => sub_category_name

/-- Description of a sub-category page (lines 118-119): text of
div.header-content-description, else the fallback placeholder. -/
def subCatDescription (page : PageDoc) : String :=
  match page.headerDescription with
  | some d => d
  | none => "No description found."

/-- The sub-category loop body (lines 103-145). Accessing href on a link
that lacks the attribute raises KeyError (line 105). -/
def processSubCat (w : World) (products_url : String) (category_path : FilePath0)
    (link : Anchor) (st : Crawl) : Crawl × Option PyErr :=
  let sub_category_name := sanitize_name link.text
  match link.href with
  | none => (st, some (PyErr.keyError "href"))
  | some href =>
      let sub_category_url := w.resolve products_url href
      let sub_category_path := category_path ++ [sub_category_name]
      let st1 := osMakedirs sub_category_path st
      match get_soup w sub_category_url st1 with
      | (none, st2) => (st2, none)
      | (some page, st2) =>
          let title := subCatTitle page sub_category_name
          let description := subCatDescription page
          let st3 := save_text_file
            (sub_category_path ++ [sub_category_name ++ "_description.txt"])
            title description st2
          if page.tableRows.isEmpty then (st3, none)
          else (processRows w sub_category_url sub_category_path page.tableRows st3, none)

/-- The sub-category loop (lines 103-145); a raised KeyError aborts it. -/
def processSubCats (w : World) (products_url : String) (category_path : FilePath0) :
    List Anchor → Crawl → Crawl × Option PyErr
  | [], st => (st, none)
  | link :: rest, st =>
      match processSubCat w products_url category_path link st with
      | (st1, none) => processSubCats w products_url category_path rest st1
      | (st1, some e) => (st1, some e)

/-- The category-block loop body (lines 90-101). -/
def processBlock (w : World) (products_url : String) (block : CategoryBlock)
    (st : Crawl) : Crawl × Option PyErr :=
  match block.titleH3 with
  | none => (st, none)
  | some t =>
      let category_name := sanitize_name t
      let category_path := [MAIN_FOLDER, category_name]
      let st1 := osMakedirs category_path st
      processSubCats w products_url category_path block.subCatLinks st1

/-- The category-block loop (lines 90-145). -/
def processBlocks (w : World) (products_url : String) :
    List CategoryBlock → Crawl → Crawl × Option PyErr
  | [], st => (st, none)
  | block :: rest, st =>
      match processBlock w products_url block st with
      | (st1, none) => processBlocks w products_url rest st1
      | (st1, some e) => (st1, some e)

/-- The portfolio-container step (lines 81-145): fatal abort when the
div.stack.my-12 container is absent, else the category-block loop over
its div.hover:shadow-highlight blocks. -/
def afterProducts (w : World) (products_url : String) (products_page : PageDoc)
    (st : Crawl) : Crawl × Option PyErr :=
  match products_page.portfolioBlocks with
  | none => (st, none)
  | some blocks => processBlocks w products_url blocks st

/-- `main` (lines 58-147), started on the filesystem `fs0`. The products
link found by `select_one` necessarily has href equal to
/en-us/products/, so the resolved products URL is that literal joined to
the start URL. Returns the final state and the uncaught exception, if
one was raised. Named `mainScraper` because Lean reserves the name of the
embedded routine, `main`, for program entry points. -/
def mainScraper (w : World) (fs0 : FS) : Crawl × Option PyErr :=
  let st0 := osMakedirs [MAIN_FOLDER] { fs := fs0, requests := [], writes := [] }
  match get_soup w START_URL st0 with
  | (none, st1) => (st1, none)
  | (some homepage, st1) =>
      if homepage.hasProductsNavLink = false then (st1, none)
      else
        let products_url := w.resolve START_URL "/en-us/products/"
        match get_soup w products_url st1 with
        | (none, st2) => (st2, none)
        | (some products_page, st2) => afterProducts w products_url products_page st2

/-! ## Homepage Snapshot Scraper

The second script the specification describes is absent from the
repository sources; every definition in this section is modelled from
section 4.2 of the specification. -/

/-- Modelled from the spec: missing Homepage Snapshot Scraper. One page
element relevant to text extraction: its tag name and its text content. -/
structure SnapElem where
  tag : String
  text : String
deriving DecidableEq

/-- Modelled from the spec: missing Homepage Snapshot Scraper. The parsed
homepage: its elements in document order, and the src attribute of every
image element in document order. -/
structure SnapPage where
  elems : List SnapElem
  imgSrcs : List String
deriving DecidableEq

/-- Modelled from the spec: missing Homepage Snapshot Scraper. The
external world it sees: urljoin, the page fetch, and the streamed image
GET per URL (absent on failure). -/
structure SnapWorld where
  resolve : String → String → String
  page : String → Option SnapPage
  imageBytes : String → Option (List Nat)

/-- Modelled from the spec: the fixed target URL of the snapshot run. -/
def SNAP_URL : String := "https://www.advancedenergy.com/en-us/"

/-- The tags whose text the snapshot scraper collects. -/
def textTags : List String := ["h1", "h2", "h3", "p", "li"]

/-- Python str.strip on a Lean string. -/
def stripStr (s : String) : String := ⟨pyStrip s.data⟩

/-- Modelled from the spec: missing Homepage Snapshot Scraper. The
combined text: the trimmed text of every h1/h2/h3/p/li element in
document order, empty strings discarded, joined by newlines. -/
def snapshotText (elems : List SnapElem) : String :=
  String.intercalate "\n"
    (((elems.filter (fun e => textTags.contains e.tag)).map
        (fun e => stripStr e.text)).filter (fun t => !(t == "")))

/-- Modelled from the spec: the last path segment of an image URL. -/
def lastSegment (url : String) : String := (url.splitOn "/").getLastD ""

/-- Modelled from the spec: missing Homepage Snapshot Scraper. saveImage:
GET the URL (a failure is logged and skipped); derive the filename as the
last path segment; silently skip when it is empty; otherwise write the
body under the Images folder, overwriting any file of the same name. -/
def saveImage (w : SnapWorld) (url : String) (st : Crawl) : Crawl :=
  let st1 := { st with requests := st.requests ++ [url] }
  match w.imageBytes url with
  | none => st1
  | some bytes =>
      if lastSegment url = "" then st1
      else writeFile ["Images", lastSegment url] (FileData.bin bytes) st1

/-- Modelled from the spec: the image loop, in discovery order. -/
def saveImages (w : SnapWorld) : List String → Crawl → Crawl
  | [], st => st
  | u :: rest, st => saveImages w rest (saveImage w u st)

/-- Modelled from the spec: missing Homepage Snapshot Scraper. The run:
set up the Text and Images folders, fetch the one target page, save the
combined text to Text/scraped_content.txt when the fetch succeeded, then
save every image, resolved against the page URL, in discovery order. -/
def runSnapshot (w : SnapWorld) (fs0 : FS) : Crawl :=
  let st0 := osMakedirs ["Images"]
    (osMakedirs ["Text"] { fs := fs0, requests := [], writes := [] })
  let st1 := { st0 with requests := st0.requests ++ [SNAP_URL] }
  match w.page SNAP_URL with
  | none => st1
  | some page =>
      let st2 := writeFile ["Text", "scraped_content.txt"]
        (FileData.text (snapshotText page.elems)) st1
      saveImages w (page.imgSrcs.map (w.resolve SNAP_URL)) st2

/-! ## Concrete worlds and states used by the witnesses -/

/-- A world whose every fetch fails. -/
def noNetWorld : World :=
  { resolve := fun _ rel => rel, pages := fun _ => none, pdfBytes := fun _ => none }

/-- The empty filesystem. -/
def emptyFS : FS := { dirs := [], files := [] }

/-- The empty crawl state. -/
def emptyCrawl : Crawl := { fs := emptyFS, requests := [], writes := [] }

/-- A crawl state already holding one downloaded datasheet. -/
def existingPdfFS : FS :=
  { dirs := [],
    files := [(["Advanced Energy", "Cat", "Sub", "P_datasheet.pdf"], FileData.bin [1, 2, 3])] }

/-- A crawl state already holding one downloaded datasheet. -/
def existingPdfCrawl : Crawl :=
  { fs := existingPdfFS, requests := [], writes := [] }

/-- A sub-category page with no h1, no description container and no
product table. -/
def subDocBare : PageDoc :=
  { hasProductsNavLink := false, portfolioBlocks := none, h1Text := none,
    headerDescription := none, tableRows := [] }

/-- A world serving only one sub-category page. -/
def wSub : World :=
  { resolve := fun _ rel => rel,
    pages := fun u => if u == "suburl" then some subDocBare else none,
    pdfBytes := fun _ => none }

/-- Does every sub-category link of the portfolio blocks of this fetched
products page carry an href attribute? -/
def pageAnchorsHaveHrefs : Option PageDoc → Bool
  | none => true
  | some page =>
      match page.portfolioBlocks with
      | none => true
      | some blocks => blocks.all (fun b => b.subCatLinks.all (fun a => a.href.isSome))

/-- The homepage of the concrete worlds below. -/
def homeDocCx : PageDoc :=
  { hasProductsNavLink := true, portfolioBlocks := none, h1Text := none,
    headerDescription := none, tableRows := [] }

/-- A category block whose only sub-category link has no href. -/
def blockNoHref : CategoryBlock :=
  { titleH3 := some "Cat", subCatLinks := [{ text := "Sub", href := none }] }

/-- A products page holding one category block whose only sub-category
link has no href attribute. -/
def prodDocNoHref : PageDoc :=
  { hasProductsNavLink := false, portfolioBlocks := some [blockNoHref],
    h1Text := none, headerDescription := none, tableRows := [] }

/-- A world leading the crawler to the href-less sub-category link. -/
def wNoHref : World :=
  { resolve := fun _ rel => rel,
    pages := fun u =>
      if u == START_URL then some homeDocCx
      else if u == "/en-us/products/" then some prodDocNoHref
      else none,
    pdfBytes := fun _ => none }

/-- A category block like `blockNoHref` but with the href present. -/
def blockGood : CategoryBlock :=
  { titleH3 := some "Cat", subCatLinks := [{ text := "Sub", href := some "suburl" }] }

/-- A products page like `prodDocNoHref` but with the href present. -/
def prodDocGood : PageDoc :=
  { hasProductsNavLink := false, portfolioBlocks := some [blockGood],
    h1Text := none, headerDescription := none, tableRows := [] }

/-- A world whose every sub-category anchor carries an href. -/
def wGoodHref : World :=
  { resolve := fun _ rel => rel,
    pages := fun u =>
      if u == START_URL then some homeDocCx
      else if u == "/en-us/products/" then some prodDocGood
      else if u == "suburl" then some subDocBare
      else none,
    pdfBytes := fun _ => none }

/-- A world serving two distinct datasheet payloads. -/
def wTwoPdfs : World :=
  { resolve := fun _ rel => rel,
    pages := fun _ => none,
    pdfBytes := fun u =>
      if u == "pdf1" then some [1] else if u == "pdf2" then some [2] else none }

/-- A concrete homepage for the snapshot witness. -/
def snapPageCx : SnapPage :=
  { elems := [SnapElem.mk "h1" "A", SnapElem.mk "p" "", SnapElem.mk "li" "B",
      SnapElem.mk "h2" "   ", SnapElem.mk "p" "C", SnapElem.mk "div" "D"],
    imgSrcs := ["http://x/img/logo.png"] }

/-- A concrete snapshot world. -/
def wSnap : SnapWorld :=
  { resolve := fun _ rel => rel,
    page := fun u => if u == SNAP_URL then some snapPageCx else none,
    imageBytes := fun u => if u == "http://x/img/logo.png" then some [7, 8] else none }

/-- Replacing a character never turns a non-space into a space or back. -/
theorem pySpace_replace (c : Char) :
    pySpace (if isBad c then '_' else c) = pySpace c := by
  by_cases h : isBad c = true
  · simp only [h, if_true]
    have hb : c = '\\' ∨ c = '/' ∨ c = '*' ∨ c = '?' ∨ c = ':' ∨ c = '"' ∨
        c = '<' ∨ c = '>' ∨ c = '|' := by
      simpa [isBad, badChars] using h
    rcases hb with h | h | h | h | h | h | h | h | h <;> subst h <;> decide
  · simp [h]

theorem dropWhile_map_pySpace (l : List Char) :
    dropWhile pySpace (l.map (fun c => if isBad c then '_' else c)) =
      (dropWhile pySpace l).map (fun c => if isBad c then '_' else c) := by
  induction l with
  | nil => rfl
  | cons a l ih =>
      simp only [map_cons, dropWhile_cons, pySpace_replace a]
      by_cases h : pySpace a = true
      · simp [h, ih]
      · simp [h]

theorem rdropWhile_map_pySpace (l : List Char) :
    rdropWhile pySpace (l.map (fun c => if isBad c then '_' else c)) =
      (rdropWhile pySpace l).map (fun c => if isBad c then '_' else c) := by
  simp only [rdropWhile]
  rw [← map_reverse, dropWhile_map_pySpace, map_reverse]

theorem pyStrip_map_pySpace (l : List Char) :
    pyStrip (l.map (fun c => if isBad c then '_' else c)) =
      (pyStrip l).map (fun c => if isBad c then '_' else c) := by
  simp only [pyStrip]
  rw [dropWhile_map_pySpace, rdropWhile_map_pySpace]

/-- A list whose front is already stripped stays stripped after a
right-strip: dropping from the front commutes with being a prefix. -/
theorem dropWhile_rdropWhile (m : List Char) (hm : dropWhile pySpace m = m) :
    dropWhile pySpace (rdropWhile pySpace m) = rdropWhile pySpace m := by
  rw [dropWhile_eq_self_iff]
  intro hl
  have hpre : rdropWhile pySpace m <+: m := rdropWhile_prefix pySpace m
  have hget := hpre.getElem hl
  have hhead := dropWhile_eq_self_iff.mp hm (lt_of_lt_of_le hl hpre.length_le)
  simp only [get_eq_getElem] at hhead ⊢
  rw [hget]
  exact hhead

/-- `pyStrip` is idempotent. -/
theorem pyStrip_idem (l : List Char) : pyStrip (pyStrip l) = pyStrip l := by
  simp only [pyStrip]
  rw [dropWhile_rdropWhile (dropWhile pySpace l) (dropWhile_idempotent _ _),
    rdropWhile_idempotent]

/-- The replacement map is idempotent: an underscore is not a bad character. -/
theorem replace_idem (c : Char) :
    (if isBad (if isBad c then '_' else c) then '_' else (if isBad c then '_' else c)) =
      (if isBad c then '_' else c) := by
  by_cases h : isBad c = true
  · simp [h]
  · simp [h]

/-- C2, character level: the sanitized list holds no bad character, and
sanitizing twice equals sanitizing once. -/
theorem sanitizeChars_spec (l : List Char) :
    (∀ c ∈ sanitizeChars l, isBad c = false) ∧
      sanitizeChars (sanitizeChars l) = sanitizeChars l := by
  constructor
  · intro c hc
    simp only [sanitizeChars, mem_map] at hc
    obtain ⟨a, _, ha⟩ := hc
    by_cases h : isBad a = true
    · rw [if_pos h] at ha
      rw [← ha]; decide
    · rw [if_neg h] at ha
      rw [← ha]; simpa using h
  · simp only [sanitizeChars]
    rw [pyStrip_map_pySpace, pyStrip_idem, map_map]
    congr 1
    funext c
    exact replace_idem c

/-- C2: for every input string, `sanitize_name s` contains none of the
characters `\ / * ? : " < > |` (the code strips whitespace first, then
replaces each such character by an underscore), and `sanitize_name` is
idempotent. -/
theorem sanitize_name_safe_idem (s : String) :
    (∀ c ∈ (sanitize_name s).data, c ∉ badChars) ∧
      sanitize_name (sanitize_name s) = sanitize_name s := by
  obtain ⟨hsafe, hidem⟩ := sanitizeChars_spec s.data
  constructor
  · intro c hc hmem
    have hfalse : isBad c = false := hsafe c hc
    have htrue : isBad c = true := List.elem_iff.mpr hmem
    rw [hfalse] at htrue
    exact Bool.false_ne_true htrue
  · show (⟨sanitizeChars (sanitizeChars s.data)⟩ : String) = ⟨sanitizeChars s.data⟩
    rw [hidem]

/-! ## C3: fatal-abort boundary of the start fetch -/

/-- C3: when the start-page fetch fails, the crawler creates no directory
beyond the single top-level output folder, issues no network request
beyond the failed start fetch, writes no file, and returns normally. -/
theorem mainScraper_start_fetch_fails (w : World) (fs0 : FS)
    (h : w.pages START_URL = none) :
    (mainScraper w fs0).1.fs.dirs = fs0.dirs ++ [[MAIN_FOLDER]] ∧
      (mainScraper w fs0).1.requests = [START_URL] ∧
      (mainScraper w fs0).1.fs.files = fs0.files ∧
      (mainScraper w fs0).2 = none := by
  simp [mainScraper, get_soup, osMakedirs, h]

/-- C3 witness: a concrete world whose start fetch fails. -/
theorem mainScraper_start_fetch_fails_witness :
    noNetWorld.pages START_URL = none ∧
      ((mainScraper noNetWorld emptyFS).1.fs.dirs = emptyFS.dirs ++ [[MAIN_FOLDER]] ∧
        (mainScraper noNetWorld emptyFS).1.requests = [START_URL] ∧
        (mainScraper noNetWorld emptyFS).1.fs.files = emptyFS.files ∧
        (mainScraper noNetWorld emptyFS).2 = none) :=
  ⟨rfl, mainScraper_start_fetch_fails noNetWorld emptyFS rfl⟩

/-! ## C4: datasheet download idempotence -/

/-- C4: when a file already exists at the target path, `download_pdf`
issues no network request, leaves the bytes at the path unchanged, and in
fact changes nothing at all: the skip happens before any GET. -/
theorem download_pdf_skips_existing (w : World) (url : String) (p : FilePath0)
    (st : Crawl) (h : (st.fs.fileAt p).isSome = true) :
    (download_pdf w url p st).requests = st.requests ∧
      (download_pdf w url p st).fs.fileAt p = st.fs.fileAt p ∧
      download_pdf w url p st = st := by
  simp [download_pdf, h]

/-- C4 witness: a concrete state with the datasheet already on disk. -/
theorem download_pdf_skips_existing_witness :
    ((existingPdfCrawl.fs.fileAt
        ["Advanced Energy", "Cat", "Sub", "P_datasheet.pdf"]).isSome = true) ∧
      ((download_pdf noNetWorld "u" ["Advanced Energy", "Cat", "Sub", "P_datasheet.pdf"]
          existingPdfCrawl).requests = existingPdfCrawl.requests ∧
        (download_pdf noNetWorld "u" ["Advanced Energy", "Cat", "Sub", "P_datasheet.pdf"]
            existingPdfCrawl).fs.fileAt ["Advanced Energy", "Cat", "Sub", "P_datasheet.pdf"]
          = existingPdfCrawl.fs.fileAt ["Advanced Energy", "Cat", "Sub", "P_datasheet.pdf"] ∧
        download_pdf noNetWorld "u" ["Advanced Energy", "Cat", "Sub", "P_datasheet.pdf"]
            existingPdfCrawl = existingPdfCrawl) :=
  ⟨by decide, download_pdf_skips_existing noNetWorld "u"
    ["Advanced Energy", "Cat", "Sub", "P_datasheet.pdf"] existingPdfCrawl (by decide)⟩

/-! ## C9: sub-category directory creation precedes the fetch -/

/-- C9: the sub-category directory is created before the sub-category
page is fetched, so a sub-category whose fetch fails still leaves its
directory on disk, with the request recorded and no file written. -/
theorem processSubCat_dir_before_fetch (w : World) (products_url : String)
    (category_path : FilePath0) (link : Anchor) (st : Crawl) (href : String)
    (hhref : link.href = some href)
    (hfail : w.pages (w.resolve products_url href) = none) :
    (processSubCat w products_url category_path link st).1.fs.dirs
        = st.fs.dirs ++ [category_path ++ [sanitize_name link.text]] ∧
      (processSubCat w products_url category_path link st).1.requests
        = st.requests ++ [w.resolve products_url href] ∧
      (processSubCat w products_url category_path link st).1.writes = st.writes ∧
      (processSubCat w products_url category_path link st).1.fs.files = st.fs.files ∧
      (processSubCat w products_url category_path link st).2 = none := by
  simp [processSubCat, get_soup, osMakedirs, hhref, hfail]

/-- C9 witness: a concrete link whose page fetch fails. -/
theorem processSubCat_dir_before_fetch_witness :
    ((Anchor.mk "Sub" (some "suburl")).href = some "suburl") ∧
      (noNetWorld.pages (noNetWorld.resolve "purl" "suburl") = none) ∧
      ((processSubCat noNetWorld "purl" ["Advanced Energy", "Cat"]
            (Anchor.mk "Sub" (some "suburl")) emptyCrawl).1.fs.dirs
          = emptyCrawl.fs.dirs ++ [["Advanced Energy", "Cat"] ++
              [sanitize_name (Anchor.mk "Sub" (some "suburl")).text]] ∧
        (processSubCat noNetWorld "purl" ["Advanced Energy", "Cat"]
            (Anchor.mk "Sub" (some "suburl")) emptyCrawl).1.requests
          = emptyCrawl.requests ++ [noNetWorld.resolve "purl" "suburl"] ∧
        (processSubCat noNetWorld "purl" ["Advanced Energy", "Cat"]
            (Anchor.mk "Sub" (some "suburl")) emptyCrawl).1.writes = emptyCrawl.writes ∧
        (processSubCat noNetWorld "purl" ["Advanced Energy", "Cat"]
            (Anchor.mk "Sub" (some "suburl")) emptyCrawl).1.fs.files = emptyCrawl.fs.files ∧
        (processSubCat noNetWorld "purl" ["Advanced Energy", "Cat"]
            (Anchor.mk "Sub" (some "suburl")) emptyCrawl).2 = none) :=
  ⟨rfl, rfl, processSubCat_dir_before_fetch noNetWorld "purl" ["Advanced Energy", "Cat"]
    (Anchor.mk "Sub" (some "suburl")) emptyCrawl "suburl" rfl rfl⟩

/-! ## C6: partial-row tolerance -/

/-- C6: a row missing its Product cell or its Datasheet cell, or whose
product name sanitizes to the empty string, or whose Datasheet cell holds
no hyperlink, changes nothing (no request, no file), and the row loop
proceeds with the remaining rows. -/
theorem processRow_skips_degenerate (w : World) (u : String) (p : FilePath0)
    (row : Row) (st : Crawl)
    (h : row.productCell = none ∨ row.datasheetCell = none ∨
      (∀ c, row.productCell = some c → sanitize_name c.text = "") ∨
      (∀ c, row.datasheetCell = some c → findDatasheetHref c.anchors = none)) :
    processRow w u p row st = st ∧
      ∀ rest, processRows w u p (row :: rest) st = processRows w u p rest st := by
  have hrow : processRow w u p row st = st := by
    rcases row with ⟨pc, dc⟩
    cases pc with
    | none => simp [processRow]
    | some c =>
        cases dc with
        | none => simp [processRow]
        | some d =>
            rcases h with h | h | h | h
            · exact absurd h (by simp)
            · exact absurd h (by simp)
            · have hc := h c rfl
              cases hfind : findDatasheetHref d.anchors <;>
                simp [processRow, hc, hfind]
            · have hd := h d rfl
              simp [processRow, hd]
  refine ⟨hrow, fun rest => ?_⟩
  simp only [processRows, hrow]

/-- C6 witness: a concrete row whose Datasheet cell is missing. -/
theorem processRow_skips_degenerate_witness :
    ((Row.mk (some (Cell.mk "P" [])) none).productCell = none ∨
        (Row.mk (some (Cell.mk "P" [])) none).datasheetCell = none ∨
        (∀ c, (Row.mk (some (Cell.mk "P" [])) none).productCell = some c →
          sanitize_name c.text = "") ∨
        (∀ c, (Row.mk (some (Cell.mk "P" [])) none).datasheetCell = some c →
          findDatasheetHref c.anchors = none)) ∧
      (processRow noNetWorld "u" ["d"] (Row.mk (some (Cell.mk "P" [])) none) emptyCrawl
          = emptyCrawl ∧
        ∀ rest, processRows noNetWorld "u" ["d"]
            (Row.mk (some (Cell.mk "P" [])) none :: rest) emptyCrawl
          = processRows noNetWorld "u" ["d"] rest emptyCrawl) :=
  ⟨Or.inr (Or.inl rfl), processRow_skips_degenerate noNetWorld "u" ["d"]
    (Row.mk (some (Cell.mk "P" [])) none) emptyCrawl (Or.inr (Or.inl rfl))⟩

/-! ## Write-trace helpers -/

/-- `save_text_file` appends exactly one text write. -/
theorem save_text_file_writes (p : FilePath0) (t d : String) (st : Crawl) :
    (save_text_file p t d st).writes
      = st.writes ++ [(p, FileData.text (t ++ "\n\n" ++ d))] := rfl

/-- `download_pdf` appends at most one write, always a binary one. -/
theorem download_pdf_writes_shape (w : World) (url : String) (p : FilePath0)
    (st : Crawl) :
    ∃ extra, (download_pdf w url p st).writes = st.writes ++ extra ∧
      ∀ e ∈ extra, ∃ bytes, e.2 = FileData.bin bytes := by
  by_cases h : (st.fs.fileAt p).isSome = true
  · exact ⟨[], by simp [download_pdf, h], by simp⟩
  · cases hb : w.pdfBytes url with
    | none => exact ⟨[], by simp [download_pdf, h, hb], by simp⟩
    | some bytes =>
        refine ⟨[(p, FileData.bin bytes)], by simp [download_pdf, h, hb, writeFile], ?_⟩
        intro e he
        simp only [mem_singleton] at he
        exact ⟨bytes, by rw [he]⟩

/-- A row appends only binary writes. -/
theorem processRow_writes_shape (w : World) (u : String) (p : FilePath0)
    (row : Row) (st : Crawl) :
    ∃ extra, (processRow w u p row st).writes = st.writes ++ extra ∧
      ∀ e ∈ extra, ∃ bytes, e.2 = FileData.bin bytes := by
  rcases row with ⟨pc, dc⟩
  cases pc with
  | none => exact ⟨[], by simp [processRow], by simp⟩
  | some c =>
      cases dc with
      | none => exact ⟨[], by simp [processRow], by simp⟩
      | some d =>
          cases hfind : findDatasheetHref d.anchors with
          | none => exact ⟨[], by simp [processRow, hfind], by simp⟩
          | some h =>
              by_cases hname : sanitize_name c.text = ""
              · exact ⟨[], by simp [processRow, hfind, hname], by simp⟩
              · obtain ⟨extra, hext, hbin⟩ := download_pdf_writes_shape w
                  (w.resolve u h) (p ++ [sanitize_name c.text ++ "_datasheet.pdf"]) st
                exact ⟨extra, by simp [processRow, hfind, hname, hext], hbin⟩

/-- The row loop appends only binary writes. -/
theorem processRows_writes_shape (w : World) (u : String) (p : FilePath0)
    (rows : List Row) : ∀ st : Crawl,
    ∃ extra, (processRows w u p rows st).writes = st.writes ++ extra ∧
      ∀ e ∈ extra, ∃ bytes, e.2 = FileData.bin bytes := by
  induction rows with
  | nil => exact fun st => ⟨[], by simp [processRows], by simp⟩
  | cons row rest ih =>
      intro st
      obtain ⟨e1, he1, hb1⟩ := processRow_writes_shape w u p row st
      obtain ⟨e2, he2, hb2⟩ := ih (processRow w u p row st)
      refine ⟨e1 ++ e2, ?_, ?_⟩
      · simp only [processRows, he2, he1, List.append_assoc]
      · intro e he
        rcases mem_append.mp he with h | h
        · exact hb1 e h
        · exact hb2 e h

/-- Processing a sub-category whose page fetch succeeds writes the
description artifact first, then only binary datasheet writes. -/
theorem processSubCat_writes_shape (w : World) (products_url : String)
    (category_path : FilePath0) (link : Anchor) (st : Crawl) (href : String)
    (page : PageDoc)
    (hhref : link.href = some href)
    (hpage : w.pages (w.resolve products_url href) = some page) :
    ∃ extra,
      (processSubCat w products_url category_path link st).1.writes
        = st.writes ++
            ((category_path ++ [sanitize_name link.text]) ++
                [sanitize_name link.text ++ "_description.txt"],
              FileData.text (subCatTitle page (sanitize_name link.text) ++ "\n\n" ++
                subCatDescription page)) :: extra ∧
      ∀ e ∈ extra, ∃ bytes, e.2 = FileData.bin bytes := by
  by_cases hrows : page.tableRows.isEmpty
  · refine ⟨[], ?_, by simp⟩
    simp [processSubCat, hhref, get_soup, hpage, hrows, save_text_file, writeFile,
      osMakedirs]
  · obtain ⟨extra, hext, hbin⟩ := processRows_writes_shape w
      (w.resolve products_url href) (category_path ++ [sanitize_name link.text])
      page.tableRows
      (save_text_file ((category_path ++ [sanitize_name link.text]) ++
          [sanitize_name link.text ++ "_description.txt"])
        (subCatTitle page (sanitize_name link.text)) (subCatDescription page)
        { osMakedirs (category_path ++ [sanitize_name link.text]) st with
            requests := (osMakedirs (category_path ++ [sanitize_name link.text])
              st).requests ++ [w.resolve products_url href] })
    refine ⟨extra, ?_, hbin⟩
    simp only [processSubCat, hhref, get_soup, hpage, hrows, if_false,
      Bool.false_eq_true] at hext ⊢
    rw [hext]
    simp [save_text_file, writeFile, osMakedirs]

/-! ## C5: description and title fallbacks -/

/-- C5: processing a sub-category page with no
div.header-content-description element writes a description body that is
exactly the literal "No description found.", and when the page has no h1
the title written is the sanitized sub-category name; the description
artifact is the first write of the iteration. -/
theorem processSubCat_description_fallback (w : World) (products_url : String)
    (category_path : FilePath0) (link : Anchor) (st : Crawl) (href : String)
    (page : PageDoc)
    (hhref : link.href = some href)
    (hpage : w.pages (w.resolve products_url href) = some page)
    (hdesc : page.headerDescription = none) :
    subCatDescription page = "No description found." ∧
      (page.h1Text = none →
        subCatTitle page (sanitize_name link.text) = sanitize_name link.text) ∧
      ∃ extra,
        (processSubCat w products_url category_path link st).1.writes
          = st.writes ++
              ((category_path ++ [sanitize_name link.text]) ++
                  [sanitize_name link.text ++ "_description.txt"],
                FileData.text (subCatTitle page (sanitize_name link.text) ++ "\n\n" ++
                  subCatDescription page)) :: extra ∧
        ∀ e ∈ extra, ∃ bytes, e.2 = FileData.bin bytes := by
  refine ⟨by simp [subCatDescription, hdesc], fun hh1 => by simp [subCatTitle, hh1], ?_⟩
  exact processSubCat_writes_shape w products_url category_path link st href page
    hhref hpage

/-- C5 witness: a concrete sub-category page lacking the description
container and the h1 heading. -/
theorem processSubCat_description_fallback_witness :
    ((Anchor.mk "Sub" (some "suburl")).href = some "suburl") ∧
      (wSub.pages (wSub.resolve "purl" "suburl") = some subDocBare) ∧
      (subDocBare.headerDescription = none) ∧
      (subCatDescription subDocBare = "No description found." ∧
        (subDocBare.h1Text = none →
          subCatTitle subDocBare (sanitize_name (Anchor.mk "Sub" (some "suburl")).text)
            = sanitize_name (Anchor.mk "Sub" (some "suburl")).text) ∧
        ∃ extra,
          (processSubCat wSub "purl" ["Advanced Energy", "Cat"]
              (Anchor.mk "Sub" (some "suburl")) emptyCrawl).1.writes
            = emptyCrawl.writes ++
                ((["Advanced Energy", "Cat"] ++
                    [sanitize_name (Anchor.mk "Sub" (some "suburl")).text]) ++
                    [sanitize_name (Anchor.mk "Sub" (some "suburl")).text ++
                      "_description.txt"],
                  FileData.text
                    (subCatTitle subDocBare
                        (sanitize_name (Anchor.mk "Sub" (some "suburl")).text) ++
                      "\n\n" ++ subCatDescription subDocBare)) :: extra ∧
          ∀ e ∈ extra, ∃ bytes, e.2 = FileData.bin bytes) :=
  ⟨rfl, rfl, rfl, processSubCat_description_fallback wSub "purl"
    ["Advanced Energy", "Cat"] (Anchor.mk "Sub" (some "suburl")) emptyCrawl
    "suburl" subDocBare rfl rfl rfl⟩

/-! ## C8: the description artifact, its path and content -/

/-- C8: processing a sub-category under the category directory
root/category writes exactly one description artifact, at
root/category/sub/sub_description.txt with every name sanitized, whose
content is the title, a blank line, then the description body; every
other write of the iteration is a binary datasheet. -/
theorem processSubCat_description_artifact (w : World) (products_url : String)
    (cat_name : String) (link : Anchor) (st : Crawl) (href : String)
    (page : PageDoc)
    (hhref : link.href = some href)
    (hpage : w.pages (w.resolve products_url href) = some page) :
    ∃ extra,
      (processSubCat w products_url [MAIN_FOLDER, sanitize_name cat_name] link st).1.writes
        = st.writes ++
            ([MAIN_FOLDER, sanitize_name cat_name, sanitize_name link.text,
                sanitize_name link.text ++ "_description.txt"],
              FileData.text (subCatTitle page (sanitize_name link.text) ++ "\n\n" ++
                subCatDescription page)) :: extra ∧
      ∀ e ∈ extra, ∃ bytes, e.2 = FileData.bin bytes := by
  obtain ⟨extra, hext, hbin⟩ := processSubCat_writes_shape w products_url
    [MAIN_FOLDER, sanitize_name cat_name] link st href page hhref hpage
  refine ⟨extra, ?_, hbin⟩
  simpa using hext

/-- C8 witness: a concrete sub-category processed under a concrete
category. -/
theorem processSubCat_description_artifact_witness :
    ((Anchor.mk "Sub" (some "suburl")).href = some "suburl") ∧
      (wSub.pages (wSub.resolve "purl" "suburl") = some subDocBare) ∧
      ∃ extra,
        (processSubCat wSub "purl" [MAIN_FOLDER, sanitize_name "Cat"]
            (Anchor.mk "Sub" (some "suburl")) emptyCrawl).1.writes
          = emptyCrawl.writes ++
              ([MAIN_FOLDER, sanitize_name "Cat",
                  sanitize_name (Anchor.mk "Sub" (some "suburl")).text,
                  sanitize_name (Anchor.mk "Sub" (some "suburl")).text ++
                    "_description.txt"],
                FileData.text
                  (subCatTitle subDocBare
                      (sanitize_name (Anchor.mk "Sub" (some "suburl")).text) ++
                    "\n\n" ++ subCatDescription subDocBare)) :: extra ∧
        ∀ e ∈ extra, ∃ bytes, e.2 = FileData.bin bytes :=
  ⟨rfl, rfl, processSubCat_description_artifact wSub "purl" "Cat"
    (Anchor.mk "Sub" (some "suburl")) emptyCrawl "suburl" subDocBare rfl rfl⟩

/-! ## C7: exception propagation out of main -/

/-- A sub-category whose link carries an href raises nothing. -/
theorem processSubCat_no_error (w : World) (u : String) (cp : FilePath0)
    (link : Anchor) (st : Crawl) (h : link.href.isSome = true) :
    (processSubCat w u cp link st).2 = none := by
  cases hl : link.href with
  | none => rw [hl] at h; simp at h
  | some href =>
      simp only [processSubCat, hl, get_soup]
      cases w.pages (w.resolve u href) with
      | none => rfl
      | some page =>
          by_cases hrows : page.tableRows.isEmpty <;> simp [hrows]

/-- The sub-category loop raises nothing when every link has an href. -/
theorem processSubCats_no_error (w : World) (u : String) (cp : FilePath0)
    (links : List Anchor) (h : ∀ a ∈ links, a.href.isSome = true) :
    ∀ st : Crawl, (processSubCats w u cp links st).2 = none := by
  induction links with
  | nil => intro st; rfl
  | cons a rest ih =>
      intro st
      have ha := h a (mem_cons_self a rest)
      have hrest : ∀ x ∈ rest, x.href.isSome = true :=
        fun x hx => h x (mem_cons_of_mem a hx)
      rcases hps : processSubCat w u cp a st with ⟨st1, e⟩
      have he : e = none := by
        have hne := processSubCat_no_error w u cp a st ha
        rw [hps] at hne
        exact hne
      subst he
      simp only [processSubCats, hps]
      exact ih hrest st1

/-- A category block raises nothing when its links all have hrefs. -/
theorem processBlock_no_error (w : World) (u : String) (block : CategoryBlock)
    (st : Crawl) (h : ∀ a ∈ block.subCatLinks, a.href.isSome = true) :
    (processBlock w u block st).2 = none := by
  cases ht : block.titleH3 with
  | none => simp [processBlock, ht]
  | some t =>
      simp only [processBlock, ht]
      exact processSubCats_no_error w u [MAIN_FOLDER, sanitize_name t]
        block.subCatLinks h _

/-- The block loop raises nothing when every link of every block has an
href. -/
theorem processBlocks_no_error (w : World) (u : String)
    (blocks : List CategoryBlock)
    (h : ∀ b ∈ blocks, ∀ a ∈ b.subCatLinks, a.href.isSome = true) :
    ∀ st : Crawl, (processBlocks w u blocks st).2 = none := by
  induction blocks with
  | nil => intro st; rfl
  | cons b rest ih =>
      intro st
      have hb := h b (mem_cons_self b rest)
      have hrest : ∀ x ∈ rest, ∀ a ∈ x.subCatLinks, a.href.isSome = true :=
        fun x hx => h x (mem_cons_of_mem b hx)
      rcases hpb : processBlock w u b st with ⟨st1, e⟩
      have he : e = none := by
        have hne := processBlock_no_error w u b st hb
        rw [hpb] at hne
        exact hne
      subst he
      simp only [processBlocks, hpb]
      exact ih hrest st1

/-- The portfolio step raises nothing when every link of every block of
the page carries an href. -/
theorem afterProducts_no_error (w : World) (u : String) (pp : PageDoc) (st : Crawl)
    (h : ∀ blocks, pp.portfolioBlocks = some blocks →
      ∀ b ∈ blocks, ∀ a ∈ b.subCatLinks, a.href.isSome = true) :
    (afterProducts w u pp st).2 = none := by
  cases hb : pp.portfolioBlocks with
  | none => simp [afterProducts, hb]
  | some blocks =>
      simp only [afterProducts, hb]
      exact processBlocks_no_error w u blocks (h blocks hb) st

/-- C7 amended: every network fetch, datasheet download and description
write failure is caught and logged where it occurs, and no exception
leaves `main` provided every sub-category anchor on the products page
carries an href attribute; an anchor lacking one raises an uncaught
KeyError (see the counterexample). -/
theorem mainScraper_no_uncaught_error (w : World) (fs0 : FS)
    (h : pageAnchorsHaveHrefs (w.pages (w.resolve START_URL "/en-us/products/")) = true) :
    (mainScraper w fs0).2 = none := by
  simp only [mainScraper, get_soup]
  cases hh : w.pages START_URL with
  | none => rfl
  | some homepage =>
      by_cases hn : homepage.hasProductsNavLink = false
      · simp [hn]
      · simp only [if_neg hn]
        cases hp : w.pages (w.resolve START_URL "/en-us/products/") with
        | none => rfl
        | some pp =>
            rw [hp] at h
            refine afterProducts_no_error w _ pp _ (fun blocks hb b hbmem a hamem => ?_)
            simp only [pageAnchorsHaveHrefs, hb, List.all_eq_true] at h
            exact h b hbmem a hamem

/-- C7 counterexample: on a products page whose sub-category anchor lacks
an href attribute, an uncaught KeyError propagates out of `main`,
refuting the claim that no exception can propagate. -/
theorem mainScraper_keyerror_cx :
    (mainScraper wNoHref emptyFS).2 = some (PyErr.keyError "href") := by rfl

/-- C7 amended witness: a concrete crawl through a products page whose
anchors all carry hrefs finishes with no uncaught exception. -/
theorem mainScraper_no_uncaught_error_witness :
    pageAnchorsHaveHrefs (wGoodHref.pages (wGoodHref.resolve START_URL "/en-us/products/"))
        = true ∧
      (mainScraper wGoodHref emptyFS).2 = none :=
  ⟨rfl, mainScraper_no_uncaught_error wGoodHref emptyFS rfl⟩

/-! ## C10: duplicate sanitized product names within one sub-category -/

/-- C10: when two rows of one sub-category table have product names that
sanitize to the same string and the first download succeeds, the second
row is skipped by the existing-file check: the datasheet file keeps the
first row's content and only the first row's URL is requested. -/
theorem processRows_duplicate_name_keeps_first (w : World) (u : String)
    (sub_path : FilePath0) (st : Crawl) (pc1 dc1 pc2 dc2 : Cell)
    (h1 h2 : String) (b1 : List Nat) (name : String)
    (hn1 : sanitize_name pc1.text = name) (hn2 : sanitize_name pc2.text = name)
    (hne : name ≠ "")
    (hl1 : findDatasheetHref dc1.anchors = some h1)
    (hl2 : findDatasheetHref dc2.anchors = some h2)
    (habsent : st.fs.fileAt (sub_path ++ [name ++ "_datasheet.pdf"]) = none)
    (hb1 : w.pdfBytes (w.resolve u h1) = some b1) :
    (processRows w u sub_path
        [Row.mk (some pc1) (some dc1), Row.mk (some pc2) (some dc2)] st).fs.fileAt
        (sub_path ++ [name ++ "_datasheet.pdf"]) = some (FileData.bin b1) ∧
      (processRows w u sub_path
          [Row.mk (some pc1) (some dc1), Row.mk (some pc2) (some dc2)] st).requests
        = st.requests ++ [w.resolve u h1] := by
  have hnone : lookupFile st.fs.files (sub_path ++ [name ++ "_datasheet.pdf"]) = none :=
    habsent
  have hfile1 : (processRow w u sub_path (Row.mk (some pc1) (some dc1)) st).fs.fileAt
      (sub_path ++ [name ++ "_datasheet.pdf"]) = some (FileData.bin b1) := by
    simp [processRow, hn1, hl1, hne, download_pdf, FS.fileAt, hnone, hb1, writeFile,
      lookupFile]
  have hreq1 : (processRow w u sub_path (Row.mk (some pc1) (some dc1)) st).requests
      = st.requests ++ [w.resolve u h1] := by
    simp [processRow, hn1, hl1, hne, download_pdf, FS.fileAt, hnone, hb1, writeFile]
  have hskip : ∀ st1 : Crawl,
      (st1.fs.fileAt (sub_path ++ [name ++ "_datasheet.pdf"])).isSome = true →
      processRow w u sub_path (Row.mk (some pc2) (some dc2)) st1 = st1 := by
    intro st1 hs
    simp [processRow, hn2, hl2, hne, download_pdf, hs]
  constructor
  · simp only [processRows]
    rw [hskip _ (by rw [hfile1]; rfl)]
    exact hfile1
  · simp only [processRows]
    rw [hskip _ (by rw [hfile1]; rfl)]
    exact hreq1

/-- C10 witness: two concrete rows with the same sanitized product name
and distinct datasheet URLs. -/
theorem processRows_duplicate_name_keeps_first_witness :
    (sanitize_name "ProdA" = "ProdA") ∧ (sanitize_name "ProdA" = "ProdA") ∧
      ("ProdA" ≠ "") ∧
      (findDatasheetHref [Anchor.mk "d" (some "pdf1")] = some "pdf1") ∧
      (findDatasheetHref [Anchor.mk "d" (some "pdf2")] = some "pdf2") ∧
      (emptyCrawl.fs.fileAt (["Sub"] ++ ["ProdA" ++ "_datasheet.pdf"]) = none) ∧
      (wTwoPdfs.pdfBytes (wTwoPdfs.resolve "u" "pdf1") = some [1]) ∧
      ((processRows wTwoPdfs "u" ["Sub"]
          [Row.mk (some (Cell.mk "ProdA" [])) (some (Cell.mk "" [Anchor.mk "d" (some "pdf1")])),
            Row.mk (some (Cell.mk "ProdA" [])) (some (Cell.mk "" [Anchor.mk "d" (some "pdf2")]))]
          emptyCrawl).fs.fileAt (["Sub"] ++ ["ProdA" ++ "_datasheet.pdf"])
          = some (FileData.bin [1]) ∧
        (processRows wTwoPdfs "u" ["Sub"]
          [Row.mk (some (Cell.mk "ProdA" [])) (some (Cell.mk "" [Anchor.mk "d" (some "pdf1")])),
            Row.mk (some (Cell.mk "ProdA" [])) (some (Cell.mk "" [Anchor.mk "d" (some "pdf2")]))]
          emptyCrawl).requests = emptyCrawl.requests ++ [wTwoPdfs.resolve "u" "pdf1"]) :=
  ⟨by decide, by decide, by decide, rfl, rfl, rfl, rfl,
    processRows_duplicate_name_keeps_first wTwoPdfs "u" ["Sub"] emptyCrawl
      (Cell.mk "ProdA" []) (Cell.mk "" [Anchor.mk "d" (some "pdf1")])
      (Cell.mk "ProdA" []) (Cell.mk "" [Anchor.mk "d" (some "pdf2")])
      "pdf1" "pdf2" [1] "ProdA" (by decide) (by decide) (by decide) rfl rfl rfl rfl⟩

/-! ## C1: behaviour of the Homepage Snapshot Scraper -/

/-- One image save: one GET, the text snapshot untouched, and at most one
write, landing in the Images folder with binary content. -/
theorem saveImage_spec (w : SnapWorld) (u : String) (st : Crawl) :
    (saveImage w u st).requests = st.requests ++ [u] ∧
      (saveImage w u st).fs.fileAt ["Text", "scraped_content.txt"]
        = st.fs.fileAt ["Text", "scraped_content.txt"] ∧
      ∃ extra, (saveImage w u st).writes = st.writes ++ extra ∧
        ∀ e ∈ extra, ∃ f bytes, e.1 = ["Images", f] ∧ e.2 = FileData.bin bytes := by
  cases hb : w.imageBytes u with
  | none =>
      exact ⟨by simp [saveImage, hb], by simp [saveImage, hb],
        ⟨[], by simp [saveImage, hb], by simp⟩⟩
  | some bytes =>
      by_cases hseg : lastSegment u = ""
      · exact ⟨by simp [saveImage, hb, hseg], by simp [saveImage, hb, hseg],
          ⟨[], by simp [saveImage, hb, hseg], by simp⟩⟩
      · have hne : (["Images", lastSegment u] : FilePath0)
            ≠ ["Text", "scraped_content.txt"] := by
          intro hcontra
          have : ("Images" : String) = "Text" := by
            simpa using congrArg (fun l => l.headD "") hcontra
          exact absurd this (by decide)
        refine ⟨by simp [saveImage, hb, hseg, writeFile], ?_, ?_⟩
        · simp [saveImage, hb, hseg, writeFile, FS.fileAt, lookupFile, hne]
        · refine ⟨[(["Images", lastSegment u], FileData.bin bytes)],
            by simp [saveImage, hb, hseg, writeFile], ?_⟩
          intro e he
          simp only [mem_singleton] at he
          exact ⟨lastSegment u, bytes, by rw [he], by rw [he]⟩

/-- The image loop: one GET per URL in order, the text snapshot
untouched, and only binary writes into the Images folder. -/
theorem saveImages_spec (w : SnapWorld) (urls : List String) : ∀ st : Crawl,
    (saveImages w urls st).requests = st.requests ++ urls ∧
      (saveImages w urls st).fs.fileAt ["Text", "scraped_content.txt"]
        = st.fs.fileAt ["Text", "scraped_content.txt"] ∧
      ∃ extra, (saveImages w urls st).writes = st.writes ++ extra ∧
        ∀ e ∈ extra, ∃ f bytes, e.1 = ["Images", f] ∧ e.2 = FileData.bin bytes := by
  induction urls with
  | nil => exact fun st => ⟨by simp [saveImages], by simp [saveImages],
      ⟨[], by simp [saveImages], by simp⟩⟩
  | cons u rest ih =>
      intro st
      obtain ⟨hr1, hf1, e1, he1, hb1⟩ := saveImage_spec w u st
      obtain ⟨hr2, hf2, e2, he2, hb2⟩ := ih (saveImage w u st)
      refine ⟨?_, ?_, e1 ++ e2, ?_, ?_⟩
      · simp only [saveImages, hr2, hr1, List.append_assoc, singleton_append]
      · simp only [saveImages, hf2, hf1]
      · simp only [saveImages, he2, he1, List.append_assoc]
      · intro e he
        rcases mem_append.mp he with h | h
        · exact hb1 e h
        · exact hb2 e h

/-- C1 (modelled from the spec; the Homepage Snapshot Scraper is not
among the repository sources): when the fetch of the fixed homepage URL
succeeds, the run requests that URL exactly once followed by one GET per
referenced image in document order; it saves the ordered non-empty
trimmed text of the h1-h3/p/li elements, newline-joined, at the fixed
path Text/scraped_content.txt; and every other write is a downloaded
image body placed in the Images folder. -/
theorem runSnapshot_behaviour (w : SnapWorld) (fs0 : FS) (page : SnapPage)
    (hp : w.page SNAP_URL = some page) :
    (runSnapshot w fs0).requests = SNAP_URL :: page.imgSrcs.map (w.resolve SNAP_URL) ∧
      (runSnapshot w fs0).fs.fileAt ["Text", "scraped_content.txt"]
        = some (FileData.text (snapshotText page.elems)) ∧
      ∃ imgWrites,
        (runSnapshot w fs0).writes
            = (["Text", "scraped_content.txt"],
                FileData.text (snapshotText page.elems)) :: imgWrites ∧
          ∀ e ∈ imgWrites, ∃ f bytes, e.1 = ["Images", f] ∧ e.2 = FileData.bin bytes := by
  obtain ⟨hr, hf, extra, hw, hbin⟩ := saveImages_spec w
    (page.imgSrcs.map (w.resolve SNAP_URL))
    (writeFile ["Text", "scraped_content.txt"]
      (FileData.text (snapshotText page.elems))
      { osMakedirs ["Images"] (osMakedirs ["Text"] { fs := fs0, requests := [], writes := [] }) with
          requests := (osMakedirs ["Images"]
            (osMakedirs ["Text"] { fs := fs0, requests := [], writes := [] })).requests
              ++ [SNAP_URL] })
  refine ⟨?_, ?_, extra, ?_, hbin⟩
  · simp only [runSnapshot, hp] at hr ⊢
    simpa [writeFile, osMakedirs] using hr
  · simp only [runSnapshot, hp] at hf ⊢
    simpa [writeFile, osMakedirs, FS.fileAt, lookupFile] using hf
  · simp only [runSnapshot, hp] at hw ⊢
    simpa [writeFile, osMakedirs] using hw

/-- C1 witness: a concrete homepage with mixed elements and one image. -/
theorem runSnapshot_behaviour_witness :
    (wSnap.page SNAP_URL = some snapPageCx) ∧
      ((runSnapshot wSnap emptyFS).requests
          = SNAP_URL :: snapPageCx.imgSrcs.map (wSnap.resolve SNAP_URL) ∧
        (runSnapshot wSnap emptyFS).fs.fileAt ["Text", "scraped_content.txt"]
          = some (FileData.text (snapshotText snapPageCx.elems)) ∧
        ∃ imgWrites,
          (runSnapshot wSnap emptyFS).writes
              = (["Text", "scraped_content.txt"],
                  FileData.text (snapshotText snapPageCx.elems)) :: imgWrites ∧
            ∀ e ∈ imgWrites, ∃ f bytes, e.1 = ["Images", f] ∧ e.2 = FileData.bin bytes) :=
  ⟨rfl, runSnapshot_behaviour wSnap emptyFS snapPageCx rfl⟩
